import Mathlib

/-!
Verification of the AFF3CT pipeline example (`examples/pipeline/src/main.cpp`).

This file shallowly embeds the program: the eight pipeline Blocks and their
construction parameters, the socket-binding graph, the per-iteration event
trace of the sweep loop in `main`, the busy-polling watchdog thread, the
Eb/N0 sweep values, the task-configuration loop of `init_modules`, and the
exit-code behaviour of `init_params`/`main`.  Library behaviour that the
repository only calls (AFF3CT `Terminal` interrupt semantics, the task
socket inventory, the pipeline `Block` engine's treatment of monitor check
handlers) is modelled from the specification, and is flagged as such in the
corresponding doc comments.

Floating-point note: the swept Eb/N0 values are modelled over `ℚ`.  With the
program's built-in constants (min 0.0, step 1.0, max 10.01) every value the
C++ `float` loop computes (0.0, 1.0, ..., 10.0) is exactly representable and
every comparison against 10.01f decides the same way as against the rational
1001/100, so the rational model coincides with the float execution.
-/

/-- The eight pipeline Blocks of `main`, in the order they are constructed
(lines 77-84) and listed in the `blocks` vector (lines 86-87). -/
inductive BlockId where
  | source
  | encoder
  | modulator
  | channel
  | demodulator
  | decoder
  | splitter
  | monitor
  deriving DecidableEq, Repr

/-- The `blocks` vector of `main` (lines 86-87): the fixed order in which
`run`, `join` and `reset` are invoked on the Blocks. -/
def blockOrder : List BlockId :=
  [BlockId.source, BlockId.encoder, BlockId.modulator, BlockId.channel,
   BlockId.demodulator, BlockId.decoder, BlockId.splitter, BlockId.monitor]

/-- The modules that receive the freshly configured noise object in each
sweep iteration (lines 106-111): the `Sigma` noise utility itself, then the
codec, the demodulator and the channel. -/
inductive NoiseTarget where
  | sigmaUtil
  | codec
  | demodulator
  | channel
  deriving DecidableEq, Repr

/-- Events of one iteration of the SNR sweep loop in `main` (lines 100-139). -/
inductive Event where
  | setNoise (t : NoiseTarget)
  | startTempReport
  | startWatchdog
  | runBlock (b : BlockId)
  | joinBlock (b : BlockId)
  | resetBlock (b : BlockId)
  | joinWatchdog
  | finalReport
  | monitorReset
  | terminalReset
  deriving DecidableEq, Repr

/-- The event trace of one iteration of the sweep loop, read off the body of
the `for` loop in `main` (lines 100-139): noise configuration (lines
103-111), temporary report (line 114), watchdog thread start (line 117),
`run` on every Block (line 124), `join` on every Block (line 125), `reset`
on every Block (line 126), watchdog join (line 128), final report (line
131), monitor reset (line 134) and terminal reset (line 135). -/
def iterTrace : List Event :=
  [Event.setNoise NoiseTarget.sigmaUtil,
   Event.setNoise NoiseTarget.codec,
   Event.setNoise NoiseTarget.demodulator,
   Event.setNoise NoiseTarget.channel,
   Event.startTempReport,
   Event.startWatchdog]
  ++ blockOrder.map Event.runBlock
  ++ blockOrder.map Event.joinBlock
  ++ blockOrder.map Event.resetBlock
  ++ [Event.joinWatchdog, Event.finalReport, Event.monitorReset,
      Event.terminalReset]

def Event.isSetNoise : Event → Bool
  | Event.setNoise _ => true
  | _ => false

def Event.isRun : Event → Bool
  | Event.runBlock _ => true
  | _ => false

def Event.isJoin : Event → Bool
  | Event.joinBlock _ => true
  | _ => false

def Event.isReset : Event → Bool
  | Event.resetBlock _ => true
  | _ => false

def Event.isStartWatchdog : Event → Bool
  | Event.startWatchdog => true
  | _ => false

/-- Every element of `tr` satisfying `p` occurs strictly before every
element satisfying `q`. -/
def precedesAll {α : Type} (tr : List α) (p q : α → Bool) : Prop :=
  ∀ i j : Fin tr.length, p (tr.get i) = true → q (tr.get j) = true →
    i.val < j.val

instance {α : Type} (tr : List α) (p q : α → Bool) :
    Decidable (precedesAll tr p q) := by
  unfold precedesAll
  infer_instance

/-!
## The watchdog thread (lines 116-121)

```cpp
bool is_done = false;
std::thread th_done_verif([&is_done, &m, &u]()
{
  while (!m.monitor->fe_limit_achieved() && !u.terminal->is_interrupt());
  is_done = true;
});
```

The two polled predicates are modelled as boolean observation sequences
indexed by the poll number: `feLim k` (resp. `intr k`) is the value
`m.monitor->fe_limit_achieved()` (resp. `u.terminal->is_interrupt()`)
returns at the k-th spin of the polling loop.  The loop body is empty (a
tight non-blocking condition check); the loop exits at the first poll
where the disjunction holds, and then `is_done` is set to `true`.
-/

/-- The busy-polling loop of `th_done_verif`, with explicit fuel: starting
at poll index `k`, return the index of the first poll at which
`fe_limit_achieved OR is_interrupt` holds, or `none` if the fuel runs out
before that (the C++ loop keeps spinning in that case). -/
def watchdogLoop (feLim intr : Nat → Bool) : Nat → Nat → Option Nat
  | 0, _ => none
  | fuel + 1, k =>
    if feLim k || intr k then some k
    else watchdogLoop feLim intr fuel (k + 1)

/-- The whole watchdog thread body: run the polling loop from poll 0; when
it exits, the shared flag `is_done` is set to `true`.  The result is
(final value of `is_done`, exit poll index). -/
def watchdogRun (feLim intr : Nat → Bool) (fuel : Nat) : Bool × Option Nat :=
  match watchdogLoop feLim intr fuel 0 with
  | some k => (true, some k)
  | none => (false, none)

/-- Soundness of the polling loop: if it exits at poll `k`, the stop
disjunction holds at `k` and at no earlier poll from the start index on. -/
theorem watchdogLoop_sound (feLim intr : Nat → Bool) :
    ∀ fuel s k, watchdogLoop feLim intr fuel s = some k →
      s ≤ k ∧ (feLim k || intr k) = true ∧
      ∀ j, s ≤ j → j < k → (feLim j || intr j) = false := by
  intro fuel
  induction fuel with
  | zero => intro s k h; simp [watchdogLoop] at h
  | succ n ih =>
    intro s k h
    unfold watchdogLoop at h
    by_cases hs : (feLim s || intr s) = true
    · rw [if_pos hs] at h
      obtain rfl : s = k := by injection h
      exact ⟨le_refl s, hs, fun j h1 h2 => absurd (lt_of_le_of_lt h1 h2) (lt_irrefl s)⟩
    · rw [if_neg hs] at h
      obtain ⟨h1, h2, h3⟩ := ih (s + 1) k h
      refine ⟨by omega, h2, fun j hj1 hj2 => ?_⟩
      rcases Nat.eq_or_lt_of_le hj1 with hj | hj
      · subst hj; exact Bool.eq_false_iff.mpr (fun hc => hs hc)
      · exact h3 j hj hj2

/-- Completeness of the polling loop: if the stop disjunction holds at poll
`s + m`, then with fuel `m + 1` the loop started at `s` exits at some poll
index at most `s + m`. -/
theorem watchdogLoop_complete (feLim intr : Nat → Bool) :
    ∀ m s, (feLim (s + m) || intr (s + m)) = true →
      ∃ k, k ≤ s + m ∧ watchdogLoop feLim intr (m + 1) s = some k := by
  intro m
  induction m with
  | zero =>
    intro s h
    refine ⟨s, le_refl s, ?_⟩
    have h0 : (feLim s || intr s) = true := by simpa using h
    simp [watchdogLoop, h0]
  | succ n ih =>
    intro s h
    by_cases hs : (feLim s || intr s) = true
    · exact ⟨s, by omega, by simp [watchdogLoop, hs]⟩
    · have h' : (feLim (s + 1 + n) || intr (s + 1 + n)) = true := by
        have : s + 1 + n = s + (n + 1) := by omega
        rw [this]; exact h
      obtain ⟨k, hk1, hk2⟩ := ih (s + 1) h'
      refine ⟨k, by omega, ?_⟩
      unfold watchdogLoop
      rw [if_neg hs]
      exact hk2

/-!
## Socket bindings (lines 89-97)
-/

/-- One `bind` call: `consumer.bind(inSocket, producer, outSocket)` connects
the named input socket of the consumer Block's task to the named output
socket of the producer Block's task. -/
structure Binding where
  consumer : BlockId
  inSocket : String
  producer : BlockId
  outSocket : String
  deriving DecidableEq, Repr

/-- The eight `bind` calls of `main` (lines 90-97), in program order. -/
def bindings : List Binding :=
  [⟨BlockId.splitter, "U_K", BlockId.source, "U_K"⟩,
   ⟨BlockId.encoder, "U_K", BlockId.splitter, "V_K1"⟩,
   ⟨BlockId.modulator, "X_N1", BlockId.encoder, "X_N"⟩,
   ⟨BlockId.channel, "X_N", BlockId.modulator, "X_N2"⟩,
   ⟨BlockId.demodulator, "Y_N1", BlockId.channel, "Y_N"⟩,
   ⟨BlockId.decoder, "Y_N", BlockId.demodulator, "Y_N2"⟩,
   ⟨BlockId.monitor, "U", BlockId.splitter, "V_K2"⟩,
   ⟨BlockId.monitor, "V", BlockId.decoder, "V_K"⟩]

/-- Modelled from the spec: the input-socket inventory of the task wrapped
by each Block.  The task implementations live in the AFF3CT library, which
is not part of the sources here; the spec records that each module exposes
"a stable list of named input/output sockets", and the chain topology named
in the spec together with the socket names appearing in the `bind` calls
fixes this inventory: the source task has no input, each middle task has
one, and the monitor check task reads the reference `U` and the decoded
`V`. -/
def inputSockets : BlockId → List String
  | BlockId.source => []
  | BlockId.splitter => ["U_K"]
  | BlockId.encoder => ["U_K"]
  | BlockId.modulator => ["X_N1"]
  | BlockId.channel => ["X_N"]
  | BlockId.demodulator => ["Y_N1"]
  | BlockId.decoder => ["Y_N"]
  | BlockId.monitor => ["U", "V"]

/-- The Block-level dependency edges induced by the bindings:
producer Block → consumer Block. -/
def graphEdges : List (BlockId × BlockId) :=
  bindings.map (fun b => (b.producer, b.consumer))

/-- `reachN n a c`: there is a binding path of length between 1 and `n`
from Block `a` to Block `c`. -/
def reachN : Nat → BlockId → BlockId → Bool
  | 0, _, _ => false
  | n + 1, a, c =>
    graphEdges.any (fun e =>
      decide (e.1 = a) && (decide (e.2 = c) || reachN n e.2 c))

/-!
## The Eb/N0 sweep (lines 19-21 and 100)

```cpp
const float ebn0_min  =  0.00f;
const float ebn0_max  = 10.01f;
const float ebn0_step =  1.00f;
...
for (auto ebn0 = p.ebn0_min; ebn0 < p.ebn0_max; ebn0 += p.ebn0_step)
```
-/

def ebn0_min : ℚ := 0
def ebn0_max : ℚ := 1001 / 100
def ebn0_step : ℚ := 1

/-- The `for` loop header of line 100 as a fuel-bounded value generator:
starting from `v`, emit `v` and continue from `v + step` while `v < maxv`. -/
def snrValues (maxv step : ℚ) : Nat → ℚ → List ℚ
  | 0, _ => []
  | fuel + 1, v =>
    if v < maxv then v :: snrValues maxv step fuel (v + step) else []

/-- The sweep values the program visits with its built-in constants. -/
def ebn0Values : List ℚ := snrValues ebn0_max ebn0_step 16 ebn0_min

/-!
## Terminal interrupt semantics and the sweep control flow (lines 100-139)

The `tools::Terminal` class lives in the AFF3CT library, not in these
sources; its interrupt behaviour is modelled from the specification.
-/

/-- Modelled from the spec: the terminal's interrupt state.  `interrupted`
is the flag behind `is_interrupt()` (a user interrupt was received for the
current run); `over` is the flag behind `is_over()` (the user pressed
Ctrl+c twice, aborting the whole sweep). -/
structure TerminalState where
  interrupted : Bool
  over : Bool
  deriving DecidableEq, Repr

def TerminalState.init : TerminalState := ⟨false, false⟩

/-- Modelled from the spec: receiving one user interrupt.  A first
interrupt only sets `interrupted`; an interrupt arriving while
`interrupted` is already set additionally sets `over` ("a second interrupt
aborts the entire sweep"). -/
def interruptOnce (t : TerminalState) : TerminalState :=
  ⟨true, t.over || t.interrupted⟩

/-- Deliver `n` user interrupts in sequence. -/
def deliver : Nat → TerminalState → TerminalState
  | 0, t => t
  | n + 1, t => deliver n (interruptOnce t)

def TerminalState.is_interrupt (t : TerminalState) : Bool := t.interrupted

def TerminalState.is_over (t : TerminalState) : Bool := t.over

/-- Modelled from the spec: `u.terminal->reset()` at the end of an
iteration (line 135) clears the per-iteration interrupt flag but not the
sweep-wide `over` flag. -/
def terminalIterReset (t : TerminalState) : TerminalState := ⟨false, t.over⟩

/-- The outcome of one sweep iteration: the Eb/N0 value it ran, whether its
run was stopped early by a user interrupt, and whether its final
statistics report was emitted. -/
structure IterResult where
  value : ℚ
  earlyStop : Bool
  reported : Bool
  deriving DecidableEq, Repr

/-- The SNR sweep loop of `main` (lines 100-139) at the level of iteration
outcomes.  `intrs k` is the number of user interrupts arriving during
iteration `k`.  Each iteration runs the chain (stopped early exactly when
an interrupt was received, via the watchdog disjunction), always emits the
final report (line 131), resets the monitor and the terminal (lines
134-135), and then the loop exits if `is_over()` holds (line 138). -/
def sweepRun : List ℚ → Nat → (Nat → Nat) → TerminalState → List IterResult
  | [], _, _, _ => []
  | v :: vs, k, intrs, t =>
    let t1 := deliver (intrs k) t
    let res : IterResult := ⟨v, t1.is_interrupt, true⟩
    let t2 := terminalIterReset t1
    if t2.is_over then [res]
    else res :: sweepRun vs (k + 1) intrs t2

/-- Interrupt schedule: exactly one user interrupt, during iteration `k0`. -/
def intrsSingle (k0 : Nat) : Nat → Nat := fun j => if j = k0 then 1 else 0

/-- Interrupt schedule: two user interrupts, both during iteration `k0`. -/
def intrsDouble (k0 : Nat) : Nat → Nat := fun j => if j = k0 then 2 else 0

/-- List of values paired with their iteration index, starting at `k`. -/
def enumF : Nat → List ℚ → List (Nat × ℚ)
  | _, [] => []
  | k, v :: vs => (k, v) :: enumF (k + 1) vs

/-- With at most one interrupt per iteration the `over` flag is never set:
every value is visited, every report is emitted, and an iteration stops
early exactly when its interrupt arrived. -/
theorem sweepRun_le_one (intrs : Nat → Nat) (h1 : ∀ j, intrs j ≤ 1) :
    ∀ vs k, sweepRun vs k intrs TerminalState.init =
      (enumF k vs).map (fun p => ⟨p.2, decide (intrs p.1 = 1), true⟩) := by
  intro vs
  induction vs with
  | nil => intro k; rfl
  | cons v vs ih =>
    intro k
    have hk := h1 k
    interval_cases hi : intrs k
    · simpa [sweepRun, enumF, deliver, TerminalState.init, interruptOnce,
        terminalIterReset, TerminalState.is_over, TerminalState.is_interrupt, hi]
        using ih (k + 1)
    · simpa [sweepRun, enumF, deliver, TerminalState.init, interruptOnce,
        terminalIterReset, TerminalState.is_over, TerminalState.is_interrupt, hi]
        using ih (k + 1)

/-- With two interrupts during iteration `k0`, iterations `k..k0` of the
remaining values run (each reported, only `k0` stopped early) and the loop
then exits: no later value is visited. -/
theorem sweepRun_double (k0 : Nat) :
    ∀ vs k, k ≤ k0 → sweepRun vs k (intrsDouble k0) TerminalState.init =
      (enumF k (vs.take (k0 + 1 - k))).map
        (fun p => ⟨p.2, decide (p.1 = k0), true⟩) := by
  intro vs
  induction vs with
  | nil => intro k _; simp [sweepRun, enumF]
  | cons v vs ih =>
    intro k hk
    by_cases hkk : k = k0
    · subst hkk
      simp [sweepRun, intrsDouble, deliver, TerminalState.init, interruptOnce,
        terminalIterReset, TerminalState.is_over, TerminalState.is_interrupt,
        enumF]
    · have hk' : k + 1 ≤ k0 := by omega
      have hstep : k0 + 1 - k = (k0 + 1 - (k + 1)) + 1 := by omega
      rw [hstep]
      simpa [sweepRun, intrsDouble, deliver, TerminalState.init, interruptOnce,
        terminalIterReset, TerminalState.is_over, TerminalState.is_interrupt,
        enumF, hkk] using ih (k + 1) hk'

/-!
## Parameters and Block construction (lines 15-30 and 77-87)
-/

/-- The `params` struct (lines 15-30), restricted to the engine-relevant
constants.  All five are `const` members with the shown initialisers; the
program never overrides them. -/
structure Params where
  bl_buffer_size : Nat
  bl_n_threads : Nat
  p_ebn0_min : ℚ
  p_ebn0_max : ℚ
  p_ebn0_step : ℚ
  deriving DecidableEq, Repr

def defaultParams : Params := ⟨16, 1, ebn0_min, ebn0_max, ebn0_step⟩

/-- A constructed pipeline Block: the task it wraps and the two
constructor arguments `p.bl_buffer_size` and `p.bl_n_threads`
(lines 77-84). -/
structure BlockCfg where
  id : BlockId
  bufferSize : Nat
  nThreads : Nat
  deriving DecidableEq, Repr

/-- The eight Block constructions of `main` (lines 77-84), each with
buffer capacity `p.bl_buffer_size` and `p.bl_n_threads` worker threads. -/
def mkBlocks (p : Params) : List BlockCfg :=
  blockOrder.map (fun b => ⟨b, p.bl_buffer_size, p.bl_n_threads⟩)

/-- Top-level events of `main`: Block constructions (before the sweep) and
the per-iteration events of the sweep loop, tagged with their iteration
index. -/
inductive MainEvent where
  | constructBlock (c : BlockCfg)
  | iter (k : Nat) (e : Event)
  deriving DecidableEq, Repr

def MainEvent.isConstruct : MainEvent → Bool
  | MainEvent.constructBlock _ => true
  | _ => false

def MainEvent.isIter : MainEvent → Bool
  | MainEvent.iter _ _ => true
  | _ => false

/-- The event trace of `main` for a sweep of `n` iterations: the eight
Blocks are constructed once (lines 77-84), then the sweep loop body
(lines 100-139) runs once per iteration.  No construction or destruction
happens inside the loop. -/
def mainTrace (p : Params) (n : Nat) : List MainEvent :=
  (mkBlocks p).map MainEvent.constructBlock
    ++ (List.range n).flatMap (fun k => iterTrace.map (MainEvent.iter k))

/-!
## Exit codes (`init_params` lines 153-181, `main` line 150)
-/

/-- Top-level phases of the process, in the order `main` and `init_params`
perform them. -/
inductive ProgEvent where
  | printHelp
  | printWarnings
  | printErrors
  | buildModules
  | buildUtils
  | constructBlocks
  | bindSockets
  | sweepLoop
  | showStats
  deriving DecidableEq, Repr

/-- The process at phase level.  `parseOk` abstracts the outcome of the
AFF3CT `Command_parser` (`!cp.parsing_failed()`); on failure `init_params`
prints help, warnings and errors and calls `std::exit(1)` (lines 167-173)
before any module is built; on success `main` builds everything, runs the
sweep (whatever interrupts arrive) and returns 0 (line 150).  The result
is (exit status, phase trace, iteration outcomes). -/
def runProgram (parseOk : Bool) (vs : List ℚ) (intrs : Nat → Nat) :
    Nat × List ProgEvent × List IterResult :=
  if parseOk then
    (0,
     [ProgEvent.buildModules, ProgEvent.buildUtils, ProgEvent.constructBlocks,
      ProgEvent.bindSockets, ProgEvent.sweepLoop, ProgEvent.showStats],
     sweepRun vs 0 intrs TerminalState.init)
  else
    (1, [ProgEvent.printHelp, ProgEvent.printWarnings, ProgEvent.printErrors], [])

/-!
## Monitor check handlers (`init_modules` lines 216-218)

```cpp
// reset the memory of the decoder after the end of each communication
// TODO: this is not done when using pipeline Block, be careful!!!
m.monitor->add_handler_check(std::bind(&module::Decoder::reset, m.decoder));
```
-/

/-- The callbacks that can be registered with the monitor's check task.
The only one this program registers is `Decoder::reset` bound to the
decoder (line 218). -/
inductive CheckHandler where
  | decoderReset
  deriving DecidableEq, Repr

/-- The monitor's registered check-handler list. -/
structure MonitorCfg where
  handlers : List CheckHandler
  deriving DecidableEq, Repr

/-- `add_handler_check` appends a callback to the handler list. -/
def add_handler_check (h : CheckHandler) (mc : MonitorCfg) : MonitorCfg :=
  ⟨mc.handlers ++ [h]⟩

/-- The monitor configuration `init_modules` leaves behind: exactly the
decoder-reset handler registered (line 218). -/
def monitorAfterInit : MonitorCfg :=
  add_handler_check CheckHandler.decoderReset ⟨[]⟩

/-- Effect of one handler on the decoder's internal memory (abstracted as
a natural number; `Decoder::reset` clears it to 0). -/
def applyHandler : CheckHandler → Nat → Nat
  | CheckHandler.decoderReset, _ => 0

/-- Modelled from the spec: when the monitor's check task is executed
directly (outside the pipeline Block engine), every registered check
handler runs after the frame comparison.  Returns the decoder memory after
one checked frame. -/
def directCheckFrame (mc : MonitorCfg) (decoderMem : Nat) : Nat :=
  mc.handlers.foldl (fun d h => applyHandler h d) decoderMem

/-- Modelled from the spec: the concurrent pipeline Block engine executes
the wrapped task only and does not invoke the registered check handlers —
the gap recorded at lines 216-217 ("this is not done when using pipeline
Block").  The decoder memory is left untouched. -/
def pipelineCheckFrame (_mc : MonitorCfg) (decoderMem : Nat) : Nat :=
  decoderMem

/-!
## Task configuration (`init_modules` lines 201-214)
-/

/-- The configuration flags of one AFF3CT task touched by `init_modules`. -/
structure TaskCfg where
  autoalloc : Bool
  autoexec : Bool
  debug : Bool
  debug_limit : Nat
  stats : Bool
  fast : Bool
  deriving DecidableEq, Repr

/-- The body of the task-configuration loop (lines 205-213), applied to
one task: the five setters in program order, then
`if (!tsk->is_debug() && !tsk->is_stats()) tsk->set_fast(true);`. -/
def configureTask (t : TaskCfg) : TaskCfg :=
  let t1 := { t with autoalloc := true }
  let t2 := { t1 with autoexec := false }
  let t3 := { t2 with debug := false }
  let t4 := { t3 with debug_limit := 16 }
  let t5 := { t4 with stats := true }
  if !t5.debug && !t5.stats then { t5 with fast := true } else t5

/-- The double loop of lines 202-214: every task of every module in
`m.list` is configured. -/
def configureModules (ms : List (List TaskCfg)) : List (List TaskCfg) :=
  ms.map (fun tasks => tasks.map configureTask)

/-!
## Helper lemmas
-/

/-- The events of one sweep iteration tagged with the iteration index, for
`n` iterations of the loop. -/
def sweepEventTrace (n : Nat) : List (Nat × Event) :=
  (List.range n).flatMap (fun k => iterTrace.map (fun e => (k, e)))

theorem enumF_map_snd : ∀ (k : Nat) (vs : List ℚ),
    (enumF k vs).map Prod.snd = vs := by
  intro k vs
  induction vs generalizing k with
  | nil => rfl
  | cons v vs ih => simp [enumF, ih]

theorem enumF_map_fst_comp {β : Type} (g : Nat → β) :
    ∀ (k : Nat) (vs : List ℚ),
      (enumF k vs).map (fun p => g p.1) = (List.range' k vs.length).map g := by
  intro k vs
  induction vs generalizing k with
  | nil => rfl
  | cons v vs ih => simp [enumF, List.range'_succ, ih]

theorem enumF_length : ∀ (k : Nat) (vs : List ℚ),
    (enumF k vs).length = vs.length := by
  intro k vs
  induction vs generalizing k with
  | nil => rfl
  | cons v vs ih => simp [enumF, ih]

theorem precedesAll_append {α : Type} (xs ys : List α) (p q : α → Bool)
    (hx : ∀ e ∈ xs, q e = false) (hy : ∀ e ∈ ys, p e = false) :
    precedesAll (xs ++ ys) p q := by
  intro i j hp hq
  have hilen := i.isLt
  have hjlen := j.isLt
  simp only [List.length_append] at hilen hjlen
  have hi : i.val < xs.length := by
    by_contra hge
    push_neg at hge
    have h2 : i.val - xs.length < ys.length := by omega
    have he : (xs ++ ys).get i = ys.get ⟨i.val - xs.length, h2⟩ := by
      simp [List.get_eq_getElem, List.getElem_append_right hge]
    rw [he] at hp
    rw [hy _ (List.get_mem ys _ _)] at hp
    exact Bool.false_ne_true hp
  have hj : xs.length ≤ j.val := by
    by_contra hlt
    push_neg at hlt
    have he : (xs ++ ys).get j = xs.get ⟨j.val, hlt⟩ := by
      simp [List.get_eq_getElem, List.getElem_append_left hlt]
    rw [he] at hq
    rw [hx _ (List.get_mem xs _ _)] at hq
    exact Bool.false_ne_true hq
  omega

/-- Every emitted sweep value is strictly below the loop bound and is
`start + k * step` for some `k : ℕ`. -/
theorem snrValues_sound (maxv step : ℚ) :
    ∀ fuel v x, x ∈ snrValues maxv step fuel v →
      x < maxv ∧ ∃ k : ℕ, x = v + k * step := by
  intro fuel
  induction fuel with
  | zero => intro v x h; simp [snrValues] at h
  | succ n ih =>
    intro v x h
    unfold snrValues at h
    by_cases hv : v < maxv
    · rw [if_pos hv] at h
      rcases List.mem_cons.mp h with h | h
      · subst h
        exact ⟨hv, 0, by ring⟩
      · obtain ⟨hx, k, hk⟩ := ih (v + step) x h
        exact ⟨hx, k + 1, by rw [hk]; push_cast; ring⟩
    · rw [if_neg hv] at h
      simp at h

/-!
## Claim theorems
-/

/-- C1: In every sweep iteration exactly one watchdog thread is started
(`iterTrace` contains one `startWatchdog` event); the watchdog busy-polls
the disjunction "frame-error limit achieved OR user interrupt requested"
and sets the shared flag `is_done` to `true` and exits exactly at the
first poll where that disjunction holds: if the disjunction ever becomes
true the loop exits at the earliest such poll with `is_done = true`, and
whenever the loop exits at poll `k` the disjunction holds at `k` and at no
earlier poll. -/
theorem watchdog_stops_at_first_true (feLim intr : Nat → Bool) (n : Nat)
    (h : (feLim n || intr n) = true) :
    iterTrace.countP Event.isStartWatchdog = 1 ∧
    (∃ k, k ≤ n ∧ watchdogRun feLim intr (n + 1) = (true, some k) ∧
      (feLim k || intr k) = true ∧
      ∀ j, j < k → (feLim j || intr j) = false) ∧
    (∀ fuel k, watchdogLoop feLim intr fuel 0 = some k →
      (feLim k || intr k) = true ∧
      ∀ j, j < k → (feLim j || intr j) = false) := by
  refine ⟨by decide, ?_, ?_⟩
  · obtain ⟨k, hk1, hk2⟩ :=
      watchdogLoop_complete feLim intr n 0 (by simpa using h)
    obtain ⟨-, hd, hmin⟩ := watchdogLoop_sound feLim intr (n + 1) 0 k hk2
    exact ⟨k, by simpa using hk1, by simp [watchdogRun, hk2], hd,
      fun j hj => hmin j (Nat.zero_le j) hj⟩
  · intro fuel k hk
    obtain ⟨-, hd, hmin⟩ := watchdogLoop_sound feLim intr fuel 0 k hk
    exact ⟨hd, fun j hj => hmin j (Nat.zero_le j) hj⟩

/-- Witness for C1 at the concrete observations `fe_limit_achieved` always
false and the interrupt raised at poll 2. -/
theorem watchdog_stops_at_first_true_w :
    (((fun _ : Nat => false) 2 || (fun k : Nat => k == 2) 2) = true) ∧
    (iterTrace.countP Event.isStartWatchdog = 1 ∧
     (∃ k, k ≤ 2 ∧
       watchdogRun (fun _ => false) (fun k => k == 2) 3 = (true, some k) ∧
       ((fun _ : Nat => false) k || (fun k : Nat => k == 2) k) = true ∧
       ∀ j, j < k →
         ((fun _ : Nat => false) j || (fun k : Nat => k == 2) j) = false) ∧
     (∀ fuel k,
       watchdogLoop (fun _ => false) (fun k => k == 2) fuel 0 = some k →
       ((fun _ : Nat => false) k || (fun k : Nat => k == 2) k) = true ∧
       ∀ j, j < k →
         ((fun _ : Nat => false) j || (fun k : Nat => k == 2) j) = false)) :=
  ⟨by decide,
   watchdog_stops_at_first_true (fun _ => false) (fun k => k == 2) 2 (by decide)⟩

/-- C2: In every sweep iteration `run` is invoked on all Blocks before any
`join`; the joins happen on every Block in the fixed `blocks` order; every
`join` precedes every `reset`; the final report comes only after all
resets; and in two consecutive iterations, every join and reset of the
first iteration precedes every noise-configuration event of the second. -/
theorem drain_order :
    precedesAll iterTrace Event.isRun Event.isJoin ∧
    iterTrace.filter Event.isJoin = blockOrder.map Event.joinBlock ∧
    precedesAll iterTrace Event.isJoin Event.isReset ∧
    iterTrace.filter Event.isReset = blockOrder.map Event.resetBlock ∧
    precedesAll iterTrace Event.isReset
      (fun e => decide (e = Event.finalReport)) ∧
    precedesAll (sweepEventTrace 2)
      (fun p => decide (p.1 = 0) && (Event.isJoin p.2 || Event.isReset p.2))
      (fun p => decide (p.1 = 1) && Event.isSetNoise p.2) := by
  refine ⟨by decide, by decide, by decide, by decide, by decide, ?_⟩
  decide

/-- C4: In every sweep iteration all noise-configuration events (the sigma
computation pushed into the noise object, then `set_noise` on the codec,
the demodulator and the channel — one each) precede the watchdog start and
every `run` on a Block. -/
theorem noise_set_before_run :
    precedesAll iterTrace Event.isSetNoise Event.isRun ∧
    precedesAll iterTrace Event.isSetNoise Event.isStartWatchdog ∧
    (∀ t : NoiseTarget,
      iterTrace.countP (fun e => decide (e = Event.setNoise t)) = 1) := by
  refine ⟨by decide, by decide, ?_⟩
  intro t
  cases t <;> decide

/-- C3: A single user interrupt during iteration `k0` stops only that
iteration early (its `earlyStop` flag is set, exactly at index `k0`), yet
every iteration — including `k0` — still emits its final report and every
subsequent parameter value still runs; two interrupts during iteration
`k0` (so `is_over` holds) make the sweep loop exit right after iteration
`k0`: exactly the first `k0 + 1` values are processed, all reported. -/
theorem interrupt_semantics (vs : List ℚ) (k0 : Nat) :
    ((sweepRun vs 0 (intrsSingle k0) TerminalState.init).map
        IterResult.value = vs ∧
     (∀ r ∈ sweepRun vs 0 (intrsSingle k0) TerminalState.init,
        r.reported = true) ∧
     (sweepRun vs 0 (intrsSingle k0) TerminalState.init).map
        IterResult.earlyStop
       = (List.range vs.length).map (fun j => decide (j = k0))) ∧
    (k0 < vs.length →
      (sweepRun vs 0 (intrsDouble k0) TerminalState.init).map
          IterResult.value = vs.take (k0 + 1) ∧
      (sweepRun vs 0 (intrsDouble k0) TerminalState.init).length = k0 + 1 ∧
      (∀ r ∈ sweepRun vs 0 (intrsDouble k0) TerminalState.init,
        r.reported = true)) := by
  have hone : ∀ j, intrsSingle k0 j ≤ 1 := by
    intro j; unfold intrsSingle; split <;> omega
  have hsingle := sweepRun_le_one (intrsSingle k0) hone vs 0
  have hdouble := sweepRun_double k0 vs 0 (Nat.zero_le k0)
  refine ⟨⟨?_, ?_, ?_⟩, ?_⟩
  · rw [hsingle, List.map_map]
    exact enumF_map_snd 0 vs
  · intro r hr
    rw [hsingle] at hr
    obtain ⟨p, -, rfl⟩ := List.mem_map.mp hr
    rfl
  · rw [hsingle, List.map_map]
    have : (IterResult.earlyStop ∘ fun p : Nat × ℚ =>
        (⟨p.2, decide (intrsSingle k0 p.1 = 1), true⟩ : IterResult))
        = fun p : Nat × ℚ => decide (p.1 = k0) := by
      funext p
      simp only [Function.comp]
      have : (intrsSingle k0 p.1 = 1) ↔ (p.1 = k0) := by
        unfold intrsSingle; split <;> simp_all
      simp [this]
    rw [this, enumF_map_fst_comp (fun j => decide (j = k0)) 0 vs,
      List.range_eq_range']
  · intro hk
    have htake : k0 + 1 - 0 = k0 + 1 := by omega
    rw [htake] at hdouble
    refine ⟨?_, ?_, ?_⟩
    · rw [hdouble, List.map_map]
      exact enumF_map_snd 0 (vs.take (k0 + 1))
    · rw [hdouble, List.length_map, enumF_length, List.length_take]
      omega
    · intro r hr
      rw [hdouble] at hr
      obtain ⟨p, -, rfl⟩ := List.mem_map.mp hr
      rfl

/-- Witness for C3 with the three sweep values 0, 1, 2 and both interrupts
during iteration 1: only values 0 and 1 are processed. -/
theorem interrupt_semantics_w :
    1 < ([0, 1, 2] : List ℚ).length ∧
    (sweepRun [0, 1, 2] 0 (intrsDouble 1) TerminalState.init).map
        IterResult.value = ([0, 1, 2] : List ℚ).take 2 :=
  ⟨by decide, ((interrupt_semantics [0, 1, 2] 1).2 (by decide)).1⟩

/-- C5: Before the first `run`, every input socket of every Block is bound
exactly once (and every binding targets a declared input socket); the
induced Block graph is acyclic; the source Block is the unique Block with
no incoming binding; and the edges are exactly: source feeds the splitter,
the splitter feeds the encoder and the monitor, and encoder, modulator,
channel, demodulator, decoder form a chain ending at the monitor. -/
theorem binding_graph_wellformed :
    (∀ b : BlockId, ∀ s ∈ inputSockets b,
      bindings.countP (fun bd =>
        decide (bd.consumer = b) && decide (bd.inSocket = s)) = 1) ∧
    (∀ bd ∈ bindings, bd.inSocket ∈ inputSockets bd.consumer) ∧
    (∀ b : BlockId, reachN 8 b b = false) ∧
    (∀ b : BlockId,
      graphEdges.countP (fun e => decide (e.2 = b)) = 0 ↔
        b = BlockId.source) ∧
    graphEdges =
      [(BlockId.source, BlockId.splitter), (BlockId.splitter, BlockId.encoder),
       (BlockId.encoder, BlockId.modulator), (BlockId.modulator, BlockId.channel),
       (BlockId.channel, BlockId.demodulator), (BlockId.demodulator, BlockId.decoder),
       (BlockId.splitter, BlockId.monitor), (BlockId.decoder, BlockId.monitor)] := by
  refine ⟨?_, by decide, ?_, ?_, by decide⟩
  · intro b; cases b <;> decide
  · intro b; cases b <;> decide
  · intro b; cases b <;> decide

/-- Witness for C5 at the monitor Block's input socket `U`. -/
theorem binding_graph_wellformed_w :
    "U" ∈ inputSockets BlockId.monitor ∧
    bindings.countP (fun bd =>
      decide (bd.consumer = BlockId.monitor) && decide (bd.inSocket = "U")) = 1 :=
  ⟨by decide, binding_graph_wellformed.1 BlockId.monitor "U" (by decide)⟩

/-- C6: If command-line parsing fails the program prints help, warnings
and errors and exits with status 1 before any module is built and before
the sweep starts (no iteration outcome is produced); if parsing succeeds
the exit status is 0 whatever interrupts arrive during the sweep,
including a double interrupt that cuts it short. -/
theorem exit_codes (vs : List ℚ) (intrs : Nat → Nat) :
    ((runProgram false vs intrs).1 = 1 ∧
     (runProgram false vs intrs).2.1 =
       [ProgEvent.printHelp, ProgEvent.printWarnings, ProgEvent.printErrors] ∧
     ProgEvent.buildModules ∉ (runProgram false vs intrs).2.1 ∧
     ProgEvent.sweepLoop ∉ (runProgram false vs intrs).2.1 ∧
     (runProgram false vs intrs).2.2 = []) ∧
    (runProgram true vs intrs).1 = 0 ∧
    (∀ k0 : Nat, (runProgram true vs (intrsDouble k0)).1 = 0) := by
  refine ⟨⟨rfl, rfl, by simp [runProgram], by simp [runProgram], rfl⟩, rfl,
    fun _ => rfl⟩

/-- C7: The sweep visits `min, min + step, min + 2*step, ...` in strictly
increasing order; with the built-in constants these are exactly the eleven
Eb/N0 values 0 to 10, i.e. the values `min + k*step` for exactly the `k`
with `min + k*step < max`; and every value any such loop emits is below
the bound and of the form `start + k*step`. -/
theorem sweep_values :
    ebn0Values = [0, 1, 2, 3, 4, 5, 6, 7, 8, 9, 10] ∧
    ebn0Values.length = 11 ∧
    ebn0Values = (List.range 11).map (fun k => ebn0_min + k * ebn0_step) ∧
    List.Chain' (fun a b => a < b) ebn0Values ∧
    (∀ k : ℕ, ebn0_min + k * ebn0_step < ebn0_max ↔ k < 11) ∧
    (∀ fuel v x, x ∈ snrValues ebn0_max ebn0_step fuel v →
      x < ebn0_max ∧ ∃ j : ℕ, x = v + j * ebn0_step) := by
  have h1 : ebn0Values = [0, 1, 2, 3, 4, 5, 6, 7, 8, 9, 10] := by
    norm_num [ebn0Values, snrValues, ebn0_min, ebn0_max, ebn0_step]
  refine ⟨h1, by rw [h1]; rfl, ?_, ?_, ?_, ?_⟩
  · rw [h1]
    norm_num [List.range_succ, ebn0_min, ebn0_step]
  · rw [h1]
    norm_num [List.chain'_cons]
  · intro k
    simp only [ebn0_min, ebn0_step, ebn0_max, mul_one, zero_add]
    constructor
    · intro h
      by_contra hk
      push_neg at hk
      have h11 : (11 : ℚ) ≤ (k : ℚ) := by exact_mod_cast hk
      have hlt : (1001 : ℚ) / 100 < 11 := by norm_num
      linarith
    · intro hk
      have h10 : (k : ℚ) ≤ 10 := by
        have hn : k ≤ 10 := by omega
        exact_mod_cast hn
      have hgt : (10 : ℚ) < 1001 / 100 := by norm_num
      linarith
  · exact snrValues_sound ebn0_max ebn0_step

/-- Witness for C7: the value 3 emitted by the loop is below the bound and
of the form `min + k*step`. -/
theorem sweep_values_w :
    (3 : ℚ) ∈ snrValues ebn0_max ebn0_step 16 ebn0_min ∧
    ((3 : ℚ) < ebn0_max ∧ ∃ j : ℕ, (3 : ℚ) = ebn0_min + j * ebn0_step) := by
  have hm : (3 : ℚ) ∈ snrValues ebn0_max ebn0_step 16 ebn0_min := by
    rw [show snrValues ebn0_max ebn0_step 16 ebn0_min = ebn0Values from rfl,
      sweep_values.1]
    simp
  exact ⟨hm, sweep_values.2.2.2.2.2 16 ebn0_min 3 hm⟩

/-- C8: Each of the eight Blocks is constructed exactly once with buffer
capacity 16 and one worker thread (the `params` defaults, never
overridden), every construction precedes every sweep-iteration event for
any number of iterations, no construction happens during the sweep (the
construction count of the whole trace stays 8), and each iteration only
resets each Block (exactly one reset per Block per iteration). -/
theorem blocks_constructed_once (n : Nat) :
    (mkBlocks defaultParams).length = 8 ∧
    (∀ c ∈ mkBlocks defaultParams, c.bufferSize = 16 ∧ c.nThreads = 1) ∧
    (∀ b : BlockId,
      (mkBlocks defaultParams).countP (fun c => decide (c.id = b)) = 1) ∧
    precedesAll (mainTrace defaultParams n)
      MainEvent.isConstruct MainEvent.isIter ∧
    (mainTrace defaultParams n).countP MainEvent.isConstruct = 8 ∧
    (∀ b : BlockId,
      iterTrace.countP (fun e => decide (e = Event.resetBlock b)) = 1) := by
  refine ⟨by decide, by decide, ?_, ?_, ?_, ?_⟩
  · intro b; cases b <;> decide
  · have hx : ∀ e ∈ (mkBlocks defaultParams).map MainEvent.constructBlock,
        MainEvent.isIter e = false := by
      intro e he
      obtain ⟨c, -, rfl⟩ := List.mem_map.mp he
      rfl
    have hy : ∀ e ∈ (List.range n).flatMap
        (fun k => iterTrace.map (MainEvent.iter k)),
        MainEvent.isConstruct e = false := by
      intro e he
      obtain ⟨k, -, he2⟩ := List.mem_flatMap.mp he
      obtain ⟨ev, -, rfl⟩ := List.mem_map.mp he2
      rfl
    exact precedesAll_append _ _ _ _ hx hy
  · unfold mainTrace
    rw [List.countP_append]
    have h1 : ((mkBlocks defaultParams).map
        MainEvent.constructBlock).countP MainEvent.isConstruct = 8 := by decide
    have h2 : ((List.range n).flatMap
        (fun k => iterTrace.map (MainEvent.iter k))).countP
        MainEvent.isConstruct = 0 := by
      rw [List.countP_eq_zero]
      intro e he
      obtain ⟨k, -, he2⟩ := List.mem_flatMap.mp he
      obtain ⟨ev, -, rfl⟩ := List.mem_map.mp he2
      simp [MainEvent.isConstruct]
    omega
  · intro b; cases b <;> decide

/-- Witness for C8 at the source Block's construction record. -/
theorem blocks_constructed_once_w :
    ((⟨BlockId.source, 16, 1⟩ : BlockCfg) ∈ mkBlocks defaultParams) ∧
    ((⟨BlockId.source, 16, 1⟩ : BlockCfg).bufferSize = 16 ∧
     (⟨BlockId.source, 16, 1⟩ : BlockCfg).nThreads = 1) :=
  ⟨by decide,
   (blocks_constructed_once 1).2.1 ⟨BlockId.source, 16, 1⟩ (by decide)⟩

/-- C9: `init_modules` registers with the monitor a check handler that
resets the decoder's internal state (to run after each checked frame): the
handler list is exactly `[decoderReset]`, and a directly executed check
does reset the decoder memory to 0 — but a frame processed through the
concurrent pipeline Block engine leaves the decoder memory untouched, the
gap the source records at lines 216-217. -/
theorem decoder_reset_handler_gap :
    monitorAfterInit.handlers = [CheckHandler.decoderReset] ∧
    (∀ d : Nat, directCheckFrame monitorAfterInit d = 0) ∧
    (∀ d : Nat, pipelineCheckFrame monitorAfterInit d = d) :=
  ⟨rfl, fun _ => rfl, fun _ => rfl⟩

/-- C10: After the configuration loop of `init_modules`, every task of
every module has automatic allocation enabled, auto-execution disabled,
debug disabled (with debug limit 16) and statistics enabled; consequently
the guard `!is_debug() && !is_stats()` of `set_fast(true)` is false for
every configured task, and `configureTask` leaves the `fast` flag of
every task unchanged — fast mode is never enabled. -/
theorem tasks_configured (ms : List (List TaskCfg)) :
    (∀ tasks ∈ configureModules ms, ∀ t ∈ tasks,
      t.autoalloc = true ∧ t.autoexec = false ∧ t.debug = false ∧
      t.debug_limit = 16 ∧ t.stats = true ∧
      (!t.debug && !t.stats) = false) ∧
    (∀ t0 : TaskCfg, (configureTask t0).fast = t0.fast ∧
      (!(configureTask t0).debug && !(configureTask t0).stats) = false) := by
  constructor
  · intro tasks htasks t ht
    obtain ⟨ts, -, rfl⟩ := List.mem_map.mp htasks
    obtain ⟨t0, -, rfl⟩ := List.mem_map.mp ht
    simp [configureTask]
  · intro t0
    simp [configureTask]

/-- Witness for C10 at one module owning one task that starts with every
flag in the opposite state. -/
theorem tasks_configured_w :
    ([configureTask ⟨false, true, true, 0, false, false⟩] ∈
      configureModules [[⟨false, true, true, 0, false, false⟩]]) ∧
    (configureTask ⟨false, true, true, 0, false, false⟩ ∈
      [configureTask ⟨false, true, true, 0, false, false⟩]) ∧
    ((configureTask ⟨false, true, true, 0, false, false⟩).autoalloc = true ∧
     (configureTask ⟨false, true, true, 0, false, false⟩).autoexec = false ∧
     (configureTask ⟨false, true, true, 0, false, false⟩).debug = false ∧
     (configureTask ⟨false, true, true, 0, false, false⟩).debug_limit = 16 ∧
     (configureTask ⟨false, true, true, 0, false, false⟩).stats = true ∧
     (!(configureTask ⟨false, true, true, 0, false, false⟩).debug &&
      !(configureTask ⟨false, true, true, 0, false, false⟩).stats) = false) :=
  ⟨by decide, by decide,
   (tasks_configured [[⟨false, true, true, 0, false, false⟩]]).1
     [configureTask ⟨false, true, true, 0, false, false⟩] (by decide)
     (configureTask ⟨false, true, true, 0, false, false⟩) (by decide)⟩
